import Mathlib

/- Shallow embedding of the simulation core of src/server.js.

   Modelling conventions:
   - JS numbers holding coordinates, speeds and multipliers are modelled as
     rationals.  Math.sqrt is not rational-valued, so every definition that
     the source feeds through Math.sqrt takes an explicit square-root
     function sqrtq as a parameter.  Theorems constrain sqrtq by the
     defining equations of the real square root at exactly the points where
     the source applies it, and concrete evaluations instantiate sqrtq with
     sqrtTable, whose entries are exact square roots (see sqrtTable_sound).
   - Date.now() and Math.random() are effects; each definition whose source
     calls them takes the produced value as a parameter (now, rx, ry).
   - JSON.parse failure is modelled by an Option payload on the envelope
     (none stands for a payload that fails to parse); JSON.stringify is
     modelled as the identity on the structured snapshot value.
   - A read of an absent JS object field is modelled with Option.  The
     double-negation coercion of an arbitrary field value to a strict
     boolean is modelled by storing the truthiness of the field as a Bool
     inside the Option.
   - The JS objects keyed by numeric id (players, coins) are modelled as
     lists in key order; id-keyed insertion of a fresh larger id is a list
     append, and enumeration order of Object.values and for..in is the
     list order.
-/

-- Configuration constants, src/server.js lines 16-26.
def MAP_W : ℚ := 800

def MAP_H : ℚ := 600

def PLAYER_SPEED : ℚ := 150

def PLAYER_R : ℚ := 16

def COIN_R : ℚ := 10

def MAX_COINS : Nat := 20

def PHYS_DT : ℚ := 0.05

def COIN_SPAWN_INTERVAL : Int := 3000

def SIM_LATENCY_MS : Int := 200

/-- Stored input intent of a player: four direction booleans plus the stamp
field, which is absent until the first input message is applied
(src/server.js lines 83-89 and 101). -/
structure InputIntent where
  up : Bool
  down : Bool
  left : Bool
  right : Bool
  stamp : Option Int
deriving DecidableEq, Repr

/-- A live player (src/server.js lines 96-102).  The inputSpeedLoss field is
absent until first written; the only read site (line 135) defaults an absent
field to 1, which is modelled by initialising the field to 1. -/
structure Player where
  id : Nat
  x : ℚ
  y : ℚ
  score : Nat
  input : InputIntent
  inputSpeedLoss : ℚ
deriving DecidableEq, Repr

/-- A live coin (src/server.js lines 13, 54). -/
structure Coin where
  id : Nat
  x : ℚ
  y : ℚ
deriving DecidableEq, Repr

/-- A client connection handle; playerId is the id attached on connection
(src/server.js line 95), absent for a connection that never got one. -/
structure Conn where
  playerId : Option Nat
deriving DecidableEq, Repr

/-- A successfully parsed input message body.  Every field is optional on
the wire; a direction field is recorded by its JS truthiness, and the stamp
by its numeric value (src/server.js lines 80-89). -/
structure InMsg where
  up : Option Bool
  down : Option Bool
  left : Option Bool
  right : Option Bool
  stamp : Option Int
deriving DecidableEq, Repr

/-- A successfully parsed message: either an input message or any other
well-formed message, which handleMsg ignores (src/server.js line 80). -/
inductive Msg where
  | input (m : InMsg)
  | other
deriving DecidableEq, Repr

/-- An inbound delayed envelope (src/server.js line 28): the raw payload is
none when JSON.parse would fail on it. -/
structure Envelope where
  processAt : Int
  ws : Conn
  raw : Option Msg
deriving DecidableEq, Repr

/-- Per-player part of a snapshot (src/server.js line 44). -/
structure PlayerSnap where
  id : Nat
  x : ℚ
  y : ℚ
  score : Nat
deriving DecidableEq, Repr

/-- Per-coin part of a snapshot (src/server.js line 45). -/
structure CoinSnap where
  id : Nat
  x : ℚ
  y : ℚ
deriving DecidableEq, Repr

/-- A state snapshot (src/server.js lines 41-46). -/
structure Snapshot where
  t : Int
  players : List PlayerSnap
  coins : List CoinSnap
deriving DecidableEq, Repr

/-- An outbound delivery scheduled by sendWithLatency (src/server.js lines
34-38): the payload will be handed to the target connection when the timer
fires at fireAt, provided the connection is still open. -/
structure Delayed where
  fireAt : Int
  target : Conn
  payload : Snapshot
deriving DecidableEq, Repr

/-- The mutable server state owned by the tick loop (src/server.js lines
11-14, 28, 118). -/
structure ServerState where
  players : List Player
  coins : List Coin
  inboundQueue : List Envelope
  lastSpawn : Int
  nextCoinId : Nat
deriving DecidableEq, Repr

/-- queueInbound (src/server.js lines 29-31): append an envelope stamped
with the arrival time plus the fixed inbound delay. -/
def queueInbound (now : Int) (ws : Conn) (raw : Option Msg) (q : List Envelope) : List Envelope :=
  q ++ [{ processAt := now + SIM_LATENCY_MS, ws := ws, raw := raw }]

/-- sendWithLatency (src/server.js lines 34-38): schedule one delivery of
msg to ws after the fixed outbound delay. -/
def sendWithLatency (now : Int) (ws : Conn) (msg : Snapshot) : Delayed :=
  { fireAt := now + SIM_LATENCY_MS, target := ws, payload := msg }

/-- The timer callback body of sendWithLatency (src/server.js line 36): when
the timer fires, the payload is sent only if the connection is still open;
a closed connection makes the callback a silent no-op. -/
def deliverOutbound (d : Delayed) (openAtFire : Bool) : Option Snapshot :=
  if openAtFire then some d.payload else none

/-- The snapshot built by broadcastState (src/server.js lines 41-46). -/
def mkSnapshot (now : Int) (ps : List Player) (cs : List Coin) : Snapshot :=
  { t := now,
    players := ps.map (fun p => { id := p.id, x := p.x, y := p.y, score := p.score }),
    coins := cs.map (fun c => { id := c.id, x := c.x, y := c.y }) }

/-- broadcastState (src/server.js lines 40-49): serialize one snapshot and
schedule its delivery to every currently-connected client. -/
def broadcastState (now : Int) (ps : List Player) (cs : List Coin) (clients : List Conn) : List Delayed :=
  clients.map (fun ws => sendWithLatency now ws (mkSnapshot now ps cs))

/-- spawnCoin (src/server.js lines 52-55): a fresh coin at the random
in-bounds position determined by the two Math.random() draws rx, ry. -/
def spawnCoin (nid : Nat) (rx ry : ℚ) : Coin :=
  { id := nid, x := rx * (MAP_W - 40) + 20, y := ry * (MAP_H - 40) + 20 }

/-- Lookup of players[pid] (src/server.js line 77). -/
def findPlayer (ps : List Player) (pid : Nat) : Option Player :=
  ps.find? (fun p => p.id == pid)

/-- In-place mutation of the player with the given id. -/
def updatePlayer (ps : List Player) (pid : Nat) (f : Player → Player) : List Player :=
  ps.map (fun p => if p.id == pid then f p else p)

/-- handleMsg (src/server.js lines 75-91): a message from a connection with
no player id, or whose player is gone, is dropped; an input message for a
known player overwrites the stored input intent, coercing each direction
field to a strict boolean and defaulting a falsy stamp to the current
time. -/
def handleMsg (now : Int) (ws : Conn) (m : Msg) (ps : List Player) : List Player :=
  match ws.playerId with
  | none => ps
  | some pid =>
    match findPlayer ps pid with
    | none => ps
    | some _ =>
      match m with
      | Msg.input im =>
          updatePlayer ps pid (fun p =>
            { p with input :=
              { up := im.up.getD false,
                down := im.down.getD false,
                left := im.left.getD false,
                right := im.right.getD false,
                stamp := some (match im.stamp with
                  | none => now
                  | some v => if v = 0 then now else v) } })
      | Msg.other => ps

/-- The try block of the drain loop (src/server.js lines 63-68): a payload
that fails to parse is ignored, otherwise it is handed to handleMsg. -/
def applyEnvelope (now : Int) (ps : List Player) (e : Envelope) : List Player :=
  match e.raw with
  | none => ps
  | some m => handleMsg now e.ws m ps

/-- processInboundQueue (src/server.js lines 58-72): walk the queue in
arrival order, apply and remove every envelope whose processAt has passed,
and keep the rest queued. -/
def processInboundQueue (now : Int) (q : List Envelope) (ps : List Player) : List Envelope × List Player :=
  match q with
  | [] => ([], ps)
  | e :: rest =>
    if e.processAt ≤ now then
      processInboundQueue now rest (applyEnvelope now ps e)
    else
      let r := processInboundQueue now rest ps
      (e :: r.1, r.2)

/-- The per-player movement and clamp step of the tick loop (src/server.js
lines 124-143): build the direction vector from the stored booleans; if it
is nonzero, normalize it, displace by speed, fixed dt and the speed-loss
multiplier, and reset the multiplier; finally clamp both coordinates. -/
def movePlayer (sqrtq : ℚ → ℚ) (p : Player) : Player :=
  let vx : ℚ := (if p.input.left then -1 else 0) + (if p.input.right then 1 else 0)
  let vy : ℚ := (if p.input.up then -1 else 0) + (if p.input.down then 1 else 0)
  let p1 :=
    if vx ≠ 0 ∨ vy ≠ 0 then
      let len := sqrtq (vx * vx + vy * vy)
      let sf := p.inputSpeedLoss
      { p with x := p.x + vx / len * PLAYER_SPEED * PHYS_DT * sf,
               y := p.y + vy / len * PLAYER_SPEED * PHYS_DT * sf,
               inputSpeedLoss := 1 }
    else p
  { p1 with x := max PLAYER_R (min (MAP_W - PLAYER_R) p1.x),
            y := max PLAYER_R (min (MAP_H - PLAYER_R) p1.y) }

/-- The body of the player-player collision check for one pair (src/server.js
lines 152-175): if the centers are closer than two radii but not coincident,
push the pair apart along the separation axis, p1 by the fraction 1 - frac
of the overlap and p2 by the fraction frac, where frac is the score of p2
over the combined score plus one; both participants get the 0.8 speed-loss
multiplier. -/
def resolvePair (sqrtq : ℚ → ℚ) (p1 p2 : Player) : Player × Player :=
  let dx := p2.x - p1.x
  let dy := p2.y - p1.y
  let dist := sqrtq (dx * dx + dy * dy)
  let minDist := 2 * PLAYER_R
  if dist < minDist ∧ 0 < dist then
    let overlap := minDist - dist
    let nx := dx / dist
    let ny := dy / dist
    let totalScore : ℚ := (p1.score : ℚ) + (p2.score : ℚ) + 1
    let frac := (p2.score : ℚ) / totalScore
    ({ p1 with x := p1.x - nx * overlap * (1 - frac),
               y := p1.y - ny * overlap * (1 - frac),
               inputSpeedLoss := 0.8 },
     { p2 with x := p2.x + nx * overlap * frac,
               y := p2.y + ny * overlap * frac,
               inputSpeedLoss := 0.8 })
  else (p1, p2)

/-- The inner loop over j of the pairwise collision pass (src/server.js
lines 148-176): resolve p against each later player in order, threading the
updates of both participants. -/
def collideOne (sqrtq : ℚ → ℚ) (p : Player) : List Player → Player × List Player
  | [] => (p, [])
  | q :: qs =>
    let r1 := resolvePair sqrtq p q
    let r2 := collideOne sqrtq r1.1 qs
    (r2.1, r1.2 :: r2.2)

/-- The inner collision loop keeps the number of later players unchanged. -/
theorem collideOne_length (sqrtq : ℚ → ℚ) (p : Player) (qs : List Player) :
    (collideOne sqrtq p qs).2.length = qs.length := by
  induction qs generalizing p with
  | nil => rfl
  | cons q qs ih => simp [collideOne, ih]

/-- The outer loop over i of the pairwise collision pass (src/server.js
lines 146-177). -/
def collidePass (sqrtq : ℚ → ℚ) : List Player → List Player
  | [] => []
  | p :: ps =>
    let r := collideOne sqrtq p ps
    r.1 :: collidePass sqrtq r.2
termination_by ps => ps.length
decreasing_by simp [collideOne_length]

/-- The player-coin overlap test (src/server.js lines 184-185). -/
def coinHit (p : Player) (c : Coin) : Prop :=
  (p.x - c.x) * (p.x - c.x) + (p.y - c.y) * (p.y - c.y) ≤ (PLAYER_R + COIN_R) * (PLAYER_R + COIN_R)

instance (p : Player) (c : Coin) : Decidable (coinHit p c) := by
  unfold coinHit
  infer_instance

/-- The inner loop of the coin pickup scan for a single player (src/server.js
lines 182-190): count the coins the player overlaps and delete them from the
coin list, keeping the rest in order. -/
def pickupPlayer (p : Player) : List Coin → Nat × List Coin
  | [] => (0, [])
  | c :: cs =>
    if coinHit p c then
      let r := pickupPlayer p cs
      (r.1 + 1, r.2)
    else
      let r := pickupPlayer p cs
      (r.1, c :: r.2)

/-- The coin pickup scan over all players (src/server.js lines 180-191):
each player in order claims every still-live coin it overlaps, gaining one
score point per claimed coin; claimed coins are deleted immediately, so a
later player never sees them. -/
def pickupPass : List Player → List Coin → List Player × List Coin
  | [], cs => ([], cs)
  | p :: ps, cs =>
    let r1 := pickupPlayer p cs
    let r2 := pickupPass ps r1.2
    ({ p with score := p.score + r1.1 } :: r2.1, r2.2)

/-- Index of the first player in scan order that overlaps the coin, if any.
Used to state which player consumes a coin during the pickup scan. -/
def claimant (ps : List Player) (c : Coin) : Option Nat :=
  ps.findIdx? (fun p => decide (coinHit p c))

/-- The coin spawn check of the tick loop (src/server.js lines 193-199):
when the spawn interval has elapsed, spawn one coin if the live count is
below the cap, and reset the timer either way.  Returns the new coin list,
the new nextCoinId counter and the new lastSpawn time. -/
def spawnStep (now lastSpawn : Int) (cs : List Coin) (nid : Nat) (rx ry : ℚ) : List Coin × Nat × Int :=
  if COIN_SPAWN_INTERVAL < now - lastSpawn then
    if cs.length < MAX_COINS then
      (cs ++ [spawnCoin nid rx ry], nid + 1, now)
    else (cs, nid, now)
  else (cs, nid, lastSpawn)

/-- One firing of the tick loop (src/server.js lines 119-204): drain the
inbound queue, move and clamp every player, run the pairwise collision pass,
run the coin pickup scan, run the spawn check, and schedule the broadcast of
the resulting state. -/
def tick (sqrtq : ℚ → ℚ) (now : Int) (rx ry : ℚ) (clients : List Conn) (st : ServerState) : ServerState × List Delayed :=
  let r0 := processInboundQueue now st.inboundQueue st.players
  let ps1 := r0.2.map (movePlayer sqrtq)
  let ps2 := collidePass sqrtq ps1
  let r1 := pickupPass ps2 st.coins
  let r2 := spawnStep now st.lastSpawn r1.2 st.nextCoinId rx ry
  ({ players := r1.1, coins := r2.1, inboundQueue := r0.1,
     lastSpawn := r2.2.2, nextCoinId := r2.2.1 },
   broadcastState now r1.1 r2.1 clients)

/-- A stand-in for Math.sqrt used by the concrete evaluations below.  Every
entry is the exact nonnegative square root of its argument, as certified by
sqrtTable_sound, so on those arguments it agrees with the real function. -/
def sqrtTable (q : ℚ) : ℚ :=
  if q = 1 then 1 else if q = 16 then 4 else if q = 64 then 8 else 0

/-- Each nonzero value produced by sqrtTable squares back to the argument
and is nonnegative, so sqrtTable is the true square root there. -/
theorem sqrtTable_sound :
    sqrtTable 1 * sqrtTable 1 = 1 ∧ (0:ℚ) ≤ sqrtTable 1 ∧
    sqrtTable 16 * sqrtTable 16 = 16 ∧ (0:ℚ) ≤ sqrtTable 16 ∧
    sqrtTable 64 * sqrtTable 64 = 64 ∧ (0:ℚ) ≤ sqrtTable 64 := by
  norm_num [sqrtTable]

/- Shared concrete fixtures used by the concrete evaluations below. -/

/-- The all-false input intent a player starts with (src/server.js line 101). -/
def noInput : InputIntent :=
  { up := false, down := false, left := false, right := false, stamp := none }

/-- An input intent pressing only the right key. -/
def rightInput : InputIntent :=
  { up := false, down := false, left := false, right := true, stamp := none }

/-- Helper for the squared center distance the collision check feeds to
Math.sqrt (src/server.js lines 152-154). -/
def pairDist (sqrtq : ℚ → ℚ) (p1 p2 : Player) : ℚ :=
  sqrtq ((p2.x - p1.x) * (p2.x - p1.x) + (p2.y - p1.y) * (p2.y - p1.y))

/-- Player sitting at the left wall, idle. -/
def pWall : Player :=
  { id := 1, x := 16, y := 300, score := 0, input := noInput, inputSpeedLoss := 1 }

/-- Player slightly to the right of pWall, overlapping it, idle. -/
def pPush : Player :=
  { id := 2, x := 20, y := 300, score := 0, input := noInput, inputSpeedLoss := 1 }

/-- State with the two overlapping in-bounds players and nothing else. -/
def stWall : ServerState :=
  { players := [pWall, pPush], coins := [], inboundQueue := [], lastSpawn := 0, nextCoinId := 1 }

/-- C1 counterexample: both players of stWall start inside the map bounds,
yet after one full tick (movement, player-player collision resolution and
coin pickup all included) the first player sits at x = -12, outside
[PLAYER_R, MAP_W - PLAYER_R]: the clamp of lines 141-142 runs before the
collision displacement of lines 167-170, which is never re-clamped. -/
theorem c1_counterexample :
    stWall.players.map Player.x = [16, 20] ∧
    stWall.players.map Player.y = [300, 300] ∧
    (tick sqrtTable 0 0 0 [] stWall).1.players.map Player.x = [-12, 20] ∧
    ¬ PLAYER_R ≤ (-12 : ℚ) := by
  refine ⟨rfl, rfl, ?_, by norm_num [PLAYER_R]⟩
  norm_num [tick, stWall, pWall, pPush, processInboundQueue, movePlayer, collidePass,
    collideOne, resolvePair, pickupPass, pickupPlayer, spawnStep, sqrtTable, noInput,
    PLAYER_R, MAP_W, MAP_H, COIN_SPAWN_INTERVAL, MAX_COINS]

/-- C1 amended: the in-bounds invariant holds after the movement-and-clamp
phase of the tick (lines 124-143); it is the later collision displacement
that can leave the bounds, as c1_counterexample shows.  Every output of the
per-player movement step has both coordinates inside
[PLAYER_R, mapDimension - PLAYER_R]. -/
theorem c1_amended (sqrtq : ℚ → ℚ) (p : Player) :
    PLAYER_R ≤ (movePlayer sqrtq p).x ∧ (movePlayer sqrtq p).x ≤ MAP_W - PLAYER_R ∧
    PLAYER_R ≤ (movePlayer sqrtq p).y ∧ (movePlayer sqrtq p).y ≤ MAP_H - PLAYER_R := by
  simp only [movePlayer]
  refine ⟨le_max_left _ _, ?_, le_max_left _ _, ?_⟩
  · exact max_le (by norm_num [PLAYER_R, MAP_W]) (min_le_left _ _)
  · exact max_le (by norm_num [PLAYER_R, MAP_H]) (min_le_left _ _)

/-- Player A of the end-to-end collision scenario of the spec. -/
def pA : Player :=
  { id := 1, x := 100, y := 100, score := 0, input := noInput, inputSpeedLoss := 1 }

/-- Player B of the end-to-end collision scenario of the spec. -/
def pB : Player :=
  { id := 2, x := 108, y := 100, score := 0, input := noInput, inputSpeedLoss := 1 }

/-- C2 counterexample: for the exact scenario of the spec (players at
(100,100) and (108,100), both scores 0, d = 8, overlap = 24), the overlap is
not split evenly.  The code computes frac = p2.score / (p1.score + p2.score
+ 1) = 0, so player A absorbs the whole overlap (moving 24, to x = 76) and
player B does not move at all, instead of each moving overlap / 2 = 12. -/
theorem c2_counterexample :
    (resolvePair sqrtTable pA pB).1.x = 76 ∧
    (resolvePair sqrtTable pA pB).2.x = 108 ∧
    pA.x - (resolvePair sqrtTable pA pB).1.x = 24 ∧
    (resolvePair sqrtTable pA pB).2.x - pB.x = 0 ∧
    (2 * PLAYER_R - pairDist sqrtTable pA pB) / 2 = 12 ∧
    (0 : ℚ) ≠ 12 ∧ (24 : ℚ) ≠ 12 := by
  norm_num [resolvePair, pairDist, pA, pB, sqrtTable, noInput, PLAYER_R]

/-- C2 amended: for two overlapping, non-coincident players with equal
scores s, the resolution is not an even split.  The code uses
frac = p2.score / (p1.score + p2.score + 1) = s / (2s + 1), which is always
strictly below 1/2: the second player of the pair moves by the fraction
s / (2s + 1) of the overlap along the separation axis and the first by the
fraction (s + 1) / (2s + 1); in particular when both scores are 0 the first
player absorbs the entire overlap and the second does not move. -/
theorem c2_amended (sqrtq : ℚ → ℚ) (p1 p2 : Player) (s : ℕ)
    (hs1 : p1.score = s) (hs2 : p2.score = s)
    (h0 : 0 < pairDist sqrtq p1 p2) (hlt : pairDist sqrtq p1 p2 < 2 * PLAYER_R) :
    ((resolvePair sqrtq p1 p2).2.x - p2.x) * (2 * (s : ℚ) + 1) =
      (p2.x - p1.x) / pairDist sqrtq p1 p2 * (2 * PLAYER_R - pairDist sqrtq p1 p2) * s ∧
    ((resolvePair sqrtq p1 p2).2.y - p2.y) * (2 * (s : ℚ) + 1) =
      (p2.y - p1.y) / pairDist sqrtq p1 p2 * (2 * PLAYER_R - pairDist sqrtq p1 p2) * s ∧
    ((resolvePair sqrtq p1 p2).1.x - p1.x) * (2 * (s : ℚ) + 1) =
      -((p2.x - p1.x) / pairDist sqrtq p1 p2 * (2 * PLAYER_R - pairDist sqrtq p1 p2) * ((s : ℚ) + 1)) ∧
    ((resolvePair sqrtq p1 p2).1.y - p1.y) * (2 * (s : ℚ) + 1) =
      -((p2.y - p1.y) / pairDist sqrtq p1 p2 * (2 * PLAYER_R - pairDist sqrtq p1 p2) * ((s : ℚ) + 1)) ∧
    (s : ℚ) / (2 * s + 1) < 1 / 2 := by
  have hcond : pairDist sqrtq p1 p2 < 2 * PLAYER_R ∧ 0 < pairDist sqrtq p1 p2 := ⟨hlt, h0⟩
  have h2s : (2 * (s : ℚ) + 1) ≠ 0 := by positivity
  have h2s0 : (0:ℚ) < 2 * (s : ℚ) + 1 := by positivity
  simp only [pairDist] at hcond h0 ⊢
  simp only [resolvePair]
  rw [if_pos hcond]
  have hdne : sqrtq ((p2.x - p1.x) * (p2.x - p1.x) + (p2.y - p1.y) * (p2.y - p1.y)) ≠ 0 :=
    ne_of_gt h0
  dsimp only
  rw [hs1, hs2]
  refine ⟨?_, ?_, ?_, ?_, ?_⟩
  · field_simp
    ring
  · field_simp
    ring
  · field_simp
    ring
  · field_simp
    ring
  · rw [div_lt_div_iff₀ h2s0 (by norm_num : (0:ℚ) < 2)]
    linarith

/-- Witness for c2_amended at the concrete spec scenario: both scores 0,
players at (100,100) and (108,100); the second player is displaced by 0 and
the first by the full overlap 24 in the negative x direction. -/
theorem c2_witness :
    (resolvePair sqrtTable pA pB).2.x - pB.x = 0 ∧
    (resolvePair sqrtTable pA pB).1.x - pA.x = -24 := by
  have h := c2_amended sqrtTable pA pB 0 rfl rfl
    (by norm_num [pairDist, pA, pB, sqrtTable])
    (by norm_num [pairDist, pA, pB, sqrtTable, PLAYER_R])
  obtain ⟨h1, -, h3, -, -⟩ := h
  constructor
  · norm_num [pairDist, pA, pB, sqrtTable, PLAYER_R] at h1 ⊢
    linarith
  · norm_num [pairDist, pA, pB, sqrtTable, PLAYER_R] at h3 ⊢
    linarith

/-- Overlapping player with score 10 for the C3 scenario. -/
def pC : Player :=
  { id := 1, x := 100, y := 100, score := 10, input := noInput, inputSpeedLoss := 1 }

/-- Overlapping player with score 0 for the C3 scenario. -/
def pD : Player :=
  { id := 2, x := 108, y := 100, score := 0, input := noInput, inputSpeedLoss := 1 }

/-- C3 counterexample: with scores 10 and 0, the dominance fraction for the
pair is p2.score / (p1.score + p2.score + 1) = 0 / 11 = 0, so the score-10
player is displaced by the full overlap 24 while the score-0 player is not
displaced at all — the score-10 player does NOT move strictly less, and the
fraction is not inside the open interval (0,1). -/
theorem c3_counterexample :
    (resolvePair sqrtTable pC pD).1.x = 76 ∧
    (resolvePair sqrtTable pC pD).2.x = 108 ∧
    (resolvePair sqrtTable pC pD).1.y = 100 ∧
    (resolvePair sqrtTable pC pD).2.y = 100 ∧
    pC.x - (resolvePair sqrtTable pC pD).1.x = 24 ∧
    pD.x - (resolvePair sqrtTable pC pD).2.x = 0 ∧
    ¬ (24 : ℚ) < 0 ∧
    (pD.score : ℚ) / ((pC.score : ℚ) + (pD.score : ℚ) + 1) = 0 ∧
    ¬ 0 < (pD.score : ℚ) / ((pC.score : ℚ) + (pD.score : ℚ) + 1) := by
  norm_num [resolvePair, pC, pD, sqrtTable, PLAYER_R]

/-- Helper: with a unit separation direction scaled by two fractions of the
same positive overlap, the smaller nonnegative fraction gives the strictly
smaller squared displacement. -/
theorem disp_sq_lt (dx dy d ov a b : ℚ) (hd : d * d = dx * dx + dy * dy) (hdpos : 0 < d)
    (hov : 0 < ov) (ha : 0 ≤ a) (hab : a < b) :
    (dx / d * ov * a) ^ 2 + (dy / d * ov * a) ^ 2 <
      (dx / d * ov * b) ^ 2 + (dy / d * ov * b) ^ 2 := by
  have hdne : d ≠ 0 := ne_of_gt hdpos
  have e1 : (dx / d * ov * a) ^ 2 + (dy / d * ov * a) ^ 2 =
      (dx * dx + dy * dy) / (d * d) * (ov * a) ^ 2 := by
    field_simp
    ring
  have e2 : (dx / d * ov * b) ^ 2 + (dy / d * ov * b) ^ 2 =
      (dx * dx + dy * dy) / (d * d) * (ov * b) ^ 2 := by
    field_simp
    ring
  rw [e1, e2, ← hd, div_self (mul_ne_zero hdne hdne), one_mul, one_mul]
  have h1 : 0 ≤ ov * a := mul_nonneg hov.le ha
  have h2 : ov * a < ov * b := by nlinarith
  nlinarith

/-- C3 amended: the dominance fraction p2.score / (p1.score + p2.score + 1)
lies in the half-open interval [0,1), not (0,1), and whenever the second
player of the pair does not outscore the first, it is the second (the
lower-or-equal scorer) that is displaced strictly less; with scores 10 and 0
the score-10 player is therefore displaced strictly MORE, the opposite of
the claim. -/
theorem c3_amended (sqrtq : ℚ → ℚ) (p1 p2 : Player)
    (hsq : pairDist sqrtq p1 p2 * pairDist sqrtq p1 p2 =
      (p2.x - p1.x) * (p2.x - p1.x) + (p2.y - p1.y) * (p2.y - p1.y))
    (h0 : 0 < pairDist sqrtq p1 p2) (hlt : pairDist sqrtq p1 p2 < 2 * PLAYER_R)
    (hs : p2.score ≤ p1.score) :
    ((resolvePair sqrtq p1 p2).2.x - p2.x) ^ 2 + ((resolvePair sqrtq p1 p2).2.y - p2.y) ^ 2 <
      ((resolvePair sqrtq p1 p2).1.x - p1.x) ^ 2 + ((resolvePair sqrtq p1 p2).1.y - p1.y) ^ 2 ∧
    0 ≤ (p2.score : ℚ) / ((p1.score : ℚ) + (p2.score : ℚ) + 1) ∧
    (p2.score : ℚ) / ((p1.score : ℚ) + (p2.score : ℚ) + 1) < 1 := by
  have htot : (0:ℚ) < (p1.score : ℚ) + (p2.score : ℚ) + 1 := by positivity
  have hcast : (p2.score : ℚ) ≤ (p1.score : ℚ) := Nat.cast_le.2 hs
  have hf0 : 0 ≤ (p2.score : ℚ) / ((p1.score : ℚ) + (p2.score : ℚ) + 1) :=
    div_nonneg (Nat.cast_nonneg _) htot.le
  have hf1 : (p2.score : ℚ) / ((p1.score : ℚ) + (p2.score : ℚ) + 1) < 1 := by
    rw [div_lt_one htot]
    linarith
  have hfhalf : (p2.score : ℚ) / ((p1.score : ℚ) + (p2.score : ℚ) + 1) < 1 / 2 := by
    rw [div_lt_div_iff₀ htot (by norm_num : (0:ℚ) < 2)]
    linarith
  refine ⟨?_, hf0, hf1⟩
  have hcond : pairDist sqrtq p1 p2 < 2 * PLAYER_R ∧ 0 < pairDist sqrtq p1 p2 := ⟨hlt, h0⟩
  have hov : 0 < 2 * PLAYER_R - pairDist sqrtq p1 p2 := by linarith
  have key := disp_sq_lt (p2.x - p1.x) (p2.y - p1.y) (pairDist sqrtq p1 p2)
    (2 * PLAYER_R - pairDist sqrtq p1 p2)
    ((p2.score : ℚ) / ((p1.score : ℚ) + (p2.score : ℚ) + 1))
    (1 - (p2.score : ℚ) / ((p1.score : ℚ) + (p2.score : ℚ) + 1))
    hsq h0 hov hf0 (by linarith)
  simp only [pairDist] at hcond key
  simp only [resolvePair]
  rw [if_pos hcond]
  dsimp only
  convert key using 2 <;> ring

/-- Witness for c3_amended at the concrete scores 10 and 0: the score-0
player (second in the pair) is displaced strictly less than the score-10
player, and the fraction is in [0,1). -/
theorem c3_witness :
    ((resolvePair sqrtTable pC pD).2.x - pD.x) ^ 2 + ((resolvePair sqrtTable pC pD).2.y - pD.y) ^ 2 <
      ((resolvePair sqrtTable pC pD).1.x - pC.x) ^ 2 + ((resolvePair sqrtTable pC pD).1.y - pC.y) ^ 2 ∧
    0 ≤ (pD.score : ℚ) / ((pC.score : ℚ) + (pD.score : ℚ) + 1) ∧
    (pD.score : ℚ) / ((pC.score : ℚ) + (pD.score : ℚ) + 1) < 1 := by
  exact c3_amended sqrtTable pC pD
    (by norm_num [pairDist, pC, pD, sqrtTable])
    (by norm_num [pairDist, pC, pD, sqrtTable])
    (by norm_num [pairDist, pC, pD, sqrtTable, PLAYER_R])
    (by norm_num [pC, pD])

/-- An idle player carrying the post-collision 0.8 speed-loss multiplier. -/
def pIdle : Player :=
  { id := 1, x := 100, y := 100, score := 0, input := noInput, inputSpeedLoss := 0.8 }

/-- State containing only pIdle. -/
def stIdle : ServerState :=
  { players := [pIdle], coins := [], inboundQueue := [], lastSpawn := 0, nextCoinId := 1 }

/-- C4 counterexample: a lone player with no input direction keeps the 0.8
multiplier across a full tick — the reset to 1.0 at line 138 only runs
inside the nonzero-input branch, so the multiplier is NOT reset every tick
regardless of input. -/
theorem c4_counterexample :
    (tick sqrtTable 0 0 0 [] stIdle).1.players.map Player.inputSpeedLoss = [0.8] ∧
    (0.8 : ℚ) ≠ 1 := by
  constructor
  · norm_num [tick, stIdle, pIdle, processInboundQueue, movePlayer, collidePass, collideOne,
      pickupPass, pickupPlayer, spawnStep, noInput, COIN_SPAWN_INTERVAL, MAX_COINS,
      PLAYER_R, MAP_W, MAP_H]
  · norm_num

/-- C4 amended: the movement step resets the speed-loss multiplier to 1.0
exactly when the direction vector built from the stored input is nonzero
(left and right keys differ, or up and down keys differ); with a zero
direction vector the multiplier is left untouched, so the 0.8 penalty
persists until the next tick in which the player actually moves. -/
theorem c4_amended (sqrtq : ℚ → ℚ) (p : Player) :
    ((p.input.left = p.input.right ∧ p.input.up = p.input.down) →
      (movePlayer sqrtq p).inputSpeedLoss = p.inputSpeedLoss) ∧
    (¬ (p.input.left = p.input.right ∧ p.input.up = p.input.down) →
      (movePlayer sqrtq p).inputSpeedLoss = 1) := by
  rcases p with ⟨pid, px, py, psc, ⟨u, d, l, r, st⟩, loss⟩
  cases u <;> cases d <;> cases l <;> cases r <;>
    simp [movePlayer]

/-- A player pressing right while carrying the 0.8 multiplier. -/
def pRight : Player :=
  { id := 2, x := 100, y := 100, score := 0, input := rightInput, inputSpeedLoss := 0.8 }

/-- Witness for c4_amended: the idle player keeps 0.8 after the movement
step, while the moving player has the multiplier reset to 1. -/
theorem c4_witness :
    (movePlayer sqrtTable pIdle).inputSpeedLoss = 0.8 ∧
    (movePlayer sqrtTable pRight).inputSpeedLoss = 1 := by
  constructor
  · have h := (c4_amended sqrtTable pIdle).1 (by constructor <;> rfl)
    rw [h]
    rfl
  · exact (c4_amended sqrtTable pRight).2 (by simp [pRight, rightInput])

/-- Characterisation of one drain pass: splitting off ready envelopes keeps
not-yet-ready ones in arrival order, and applies the ready ones in arrival
order. -/
theorem processInboundQueue_eq (now : Int) (q : List Envelope) (ps : List Player) :
    processInboundQueue now q ps =
      (q.filter (fun e => decide (now < e.processAt)),
       (q.filter (fun e => decide (e.processAt ≤ now))).foldl (applyEnvelope now) ps) := by
  induction q generalizing ps with
  | nil => rfl
  | cons e rest ih =>
    by_cases h : e.processAt ≤ now
    · have h2 : ¬ now < e.processAt := not_lt.2 h
      simp [processInboundQueue, h, h2, List.filter_cons, ih]
    · have h2 : now < e.processAt := not_le.1 h
      simp [processInboundQueue, h, h2, List.filter_cons, ih]

/-- C5: a drain at time now applies exactly the envelopes whose stamp is at
most now, in original enqueue order, to the player state, and keeps the
not-yet-ready envelopes queued in order; an envelope enqueued at time T is
stamped T + SIM_LATENCY_MS, so as long as now is earlier than that, the
drain leaves it queued, untouched, and the resulting world state is exactly
what it is without that envelope: no payload is ever applied early. -/
theorem c5_drain_spec (now : Int) (q : List Envelope) (ps : List Player) :
    (processInboundQueue now q ps).1 = q.filter (fun e => decide (now < e.processAt)) ∧
    (processInboundQueue now q ps).2 =
      (q.filter (fun e => decide (e.processAt ≤ now))).foldl (applyEnvelope now) ps ∧
    ∀ T : Int, ∀ ws : Conn, ∀ raw : Option Msg, now < T + SIM_LATENCY_MS →
      processInboundQueue now (queueInbound T ws raw q) ps =
        ((processInboundQueue now q ps).1 ++
           [{ processAt := T + SIM_LATENCY_MS, ws := ws, raw := raw }],
         (processInboundQueue now q ps).2) := by
  refine ⟨by rw [processInboundQueue_eq], by rw [processInboundQueue_eq], ?_⟩
  intro T ws raw hearly
  have hlt : ¬ T + SIM_LATENCY_MS ≤ now := not_le.2 hearly
  rw [processInboundQueue_eq, processInboundQueue_eq, queueInbound]
  simp [List.filter_append, hearly, hlt]

/-- A connection bound to player id 1. -/
def cliConn : Conn := { playerId := some 1 }

/-- A plain player with id 1 used by the queue and message scenarios. -/
def basePlayer : Player :=
  { id := 1, x := 100, y := 100, score := 0, input := noInput, inputSpeedLoss := 1 }

/-- A well-formed input message pressing up, stamped 5. -/
def upMsg : Msg :=
  Msg.input { up := some true, down := none, left := none, right := none, stamp := some 5 }

/-- Witness for c5_drain_spec: a message enqueued at time 900 is stamped
1100 and a drain at time 1000 leaves it queued with the world unchanged. -/
theorem c5_witness :
    processInboundQueue 1000 (queueInbound 900 cliConn (some upMsg) []) [basePlayer] =
      ([{ processAt := 1100, ws := cliConn, raw := some upMsg }], [basePlayer]) := by
  have h := (c5_drain_spec 1000 [] [basePlayer]).2.2 900 cliConn (some upMsg)
    (by norm_num [SIM_LATENCY_MS])
  rw [h]
  norm_num [processInboundQueue, SIM_LATENCY_MS]

/-- C6: an envelope whose payload fails to parse, or a well-formed message
whose sending connection has no id or whose player is no longer in World
State, leaves the player state completely unchanged when applied, and the
drain removes it from the queue while continuing with the rest exactly as if
it had never been enqueued — it is never retried, and since applyEnvelope
and handleMsg are total functions the drain loop cannot raise. -/
theorem c6_bad_message_dropped (now : Int) (q : List Envelope) (ps : List Player) (e : Envelope)
    (hready : e.processAt ≤ now)
    (hbad : e.raw = none ∨ ∃ m, e.raw = some m ∧ e.ws.playerId.bind (findPlayer ps) = none) :
    applyEnvelope now ps e = ps ∧
    processInboundQueue now (e :: q) ps = processInboundQueue now q ps := by
  have happ : applyEnvelope now ps e = ps := by
    rcases hbad with hnone | ⟨m, hm, hnk⟩
    · simp [applyEnvelope, hnone]
    · cases hpid : e.ws.playerId with
      | none => cases m <;> simp [applyEnvelope, hm, handleMsg, hpid]
      | some pid =>
        rw [hpid] at hnk
        simp only [Option.some_bind] at hnk
        cases m <;> simp [applyEnvelope, hm, handleMsg, hpid, hnk]
  refine ⟨happ, ?_⟩
  simp [processInboundQueue, hready, happ]

/-- A connection whose player id 99 matches no live player. -/
def ghostConn : Conn := { playerId := some 99 }

/-- Witness for c6_bad_message_dropped: a ready malformed envelope and a
ready envelope from a connection with an unknown player are both dequeued
with the player state untouched. -/
theorem c6_witness :
    processInboundQueue 1000 [{ processAt := 900, ws := cliConn, raw := none }] [basePlayer] =
      ([], [basePlayer]) ∧
    processInboundQueue 1000 [{ processAt := 900, ws := ghostConn, raw := some upMsg }] [basePlayer] =
      ([], [basePlayer]) := by
  constructor
  · have h := c6_bad_message_dropped 1000 [] [basePlayer]
      { processAt := 900, ws := cliConn, raw := none } (by norm_num) (Or.inl rfl)
    rw [h.2]
    rfl
  · have h := c6_bad_message_dropped 1000 [] [basePlayer]
      { processAt := 900, ws := ghostConn, raw := some upMsg } (by norm_num)
      (Or.inr ⟨upMsg, rfl, rfl⟩)
    rw [h.2]
    rfl

/-- C7: in each tick the spawn check creates a coin only when the spawn
interval has elapsed AND the live coin count is strictly below MAX_COINS
(so a count of at most MAX_COINS never grows past MAX_COINS), it creates at
most one coin per firing, and the spawn timer is reset to now whenever the
interval has elapsed, including when the cap prevented the spawn; when the
interval has not elapsed nothing changes at all. -/
theorem c7_spawn_spec (now last : Int) (cs : List Coin) (nid : Nat) (rx ry : ℚ) :
    (COIN_SPAWN_INTERVAL < now - last → (spawnStep now last cs nid rx ry).2.2 = now) ∧
    (¬ COIN_SPAWN_INTERVAL < now - last → spawnStep now last cs nid rx ry = (cs, nid, last)) ∧
    (COIN_SPAWN_INTERVAL < now - last → cs.length < MAX_COINS →
      (spawnStep now last cs nid rx ry).1 = cs ++ [spawnCoin nid rx ry] ∧
      (spawnStep now last cs nid rx ry).2.1 = nid + 1) ∧
    (¬ cs.length < MAX_COINS →
      (spawnStep now last cs nid rx ry).1 = cs ∧ (spawnStep now last cs nid rx ry).2.1 = nid) ∧
    (cs.length ≤ MAX_COINS → (spawnStep now last cs nid rx ry).1.length ≤ MAX_COINS) ∧
    (spawnStep now last cs nid rx ry).1.length ≤ cs.length + 1 := by
  unfold spawnStep
  split_ifs with h1 h2 <;> simp_all
  omega

/-- Witness for c7_spawn_spec: with the interval elapsed and no live coins,
exactly one coin spawns, the id counter advances, the timer resets and the
cap holds. -/
theorem c7_witness :
    (spawnStep 4000 0 [] 1 0 0).2.2 = 4000 ∧
    (spawnStep 4000 0 [] 1 0 0).1 = [spawnCoin 1 0 0] ∧
    (spawnStep 4000 0 [] 1 0 0).2.1 = 2 ∧
    (spawnStep 4000 0 [] 1 0 0).1.length ≤ MAX_COINS := by
  have h := c7_spawn_spec 4000 0 [] 1 0 0
  have h3 := h.2.2.1 (by norm_num [COIN_SPAWN_INTERVAL]) (by norm_num [MAX_COINS])
  refine ⟨h.1 (by norm_num [COIN_SPAWN_INTERVAL]), by simpa using h3.1, h3.2,
    h.2.2.2.2.1 (by norm_num [MAX_COINS])⟩

/-- A coin has no claimant exactly when no live player overlaps it. -/
theorem claimant_eq_none_iff (ps : List Player) (c : Coin) :
    claimant ps c = none ↔ ∀ p ∈ ps, ¬ coinHit p c := by
  simp [claimant, List.findIdx?_eq_none_iff]

/-- Unfolding of the first-claimant index over a cons cell. -/
theorem claimant_cons (p : Player) (ps : List Player) (c : Coin) :
    claimant (p :: ps) c =
      if coinHit p c then some 0 else (claimant ps c).map (fun i => i + 1) := by
  by_cases h : coinHit p c <;>
    simp [claimant, List.findIdx?_cons, List.findIdx?_succ, h]

/-- The single-player coin scan claims exactly the overlapped coins and
keeps the others in order. -/
theorem pickupPlayer_eq (p : Player) (cs : List Coin) :
    pickupPlayer p cs =
      ((cs.filter (fun c => decide (coinHit p c))).length,
       cs.filter (fun c => !decide (coinHit p c))) := by
  induction cs with
  | nil => rfl
  | cons c cs ih =>
    by_cases h : coinHit p c <;> simp [pickupPlayer, List.filter_cons, h, ih]

/-- C8: the pickup scan removes exactly those coins that overlap at least
one player (a coin survives the tick iff its claimant is none, and claimant
is none iff no player is within pickup range), and the i-th player comes out
otherwise unchanged with its score increased by exactly the number of coins
whose FIRST overlapping player in scan order is player i.  Because claimant
is a function into at most one index, every removed coin is consumed by
exactly one player. -/
theorem c8_pickup_spec (ps : List Player) (cs : List Coin) :
    (∀ c : Coin, claimant ps c = none ↔ ∀ p ∈ ps, ¬ coinHit p c) ∧
    (pickupPass ps cs).2 = cs.filter (fun c => decide (claimant ps c = none)) ∧
    ∀ i : Nat, (pickupPass ps cs).1[i]? =
      (ps[i]?).map (fun p =>
        { p with score := p.score + (cs.filter (fun c => decide (claimant ps c = some i))).length }) := by
  refine ⟨fun c => claimant_eq_none_iff ps c, ?_, ?_⟩
  · induction ps generalizing cs with
    | nil => simp [pickupPass, claimant]
    | cons p ps ih =>
      simp only [pickupPass, pickupPlayer_eq]
      rw [ih, List.filter_filter]
      apply List.filter_congr
      intro c _
      by_cases h : coinHit p c <;> simp [claimant_cons, h]
  · induction ps generalizing cs with
    | nil => intro i; simp [pickupPass]
    | cons p ps ih =>
      intro i
      match i with
      | 0 =>
        have hcount0 : (cs.filter (fun c => decide (coinHit p c))).length =
            (cs.filter (fun c => decide (claimant (p :: ps) c = some 0))).length := by
          congr 1
          apply List.filter_congr
          intro c _
          by_cases h : coinHit p c <;> simp [claimant_cons, h]
        simp only [pickupPass, pickupPlayer_eq, List.getElem?_cons_zero, Option.map_some]
        rw [hcount0]
        rfl
      | Nat.succ j =>
        simp only [pickupPass, pickupPlayer_eq, List.getElem?_cons_succ]
        rw [ih]
        have hcount : ((cs.filter (fun c => !decide (coinHit p c))).filter
            (fun c => decide (claimant ps c = some j))).length =
            (cs.filter (fun c => decide (claimant (p :: ps) c = some (j + 1)))).length := by
          rw [List.filter_filter]
          congr 1
          apply List.filter_congr
          intro c _
          by_cases h : coinHit p c <;> simp [claimant_cons, h]
        rw [hcount]

/-- A second player standing on the same spot as basePlayer, with score 5. -/
def pSecond : Player :=
  { id := 2, x := 100, y := 100, score := 5, input := noInput, inputSpeedLoss := 1 }

/-- A coin within pickup range of both players. -/
def coinNear : Coin := { id := 1, x := 110, y := 100 }

/-- A coin far away from both players. -/
def coinFar : Coin := { id := 2, x := 500, y := 500 }

/-- Witness for c8_pickup_spec: with both players overlapping coinNear, only
the first player in scan order gains the point, the coin disappears, and the
far coin survives. -/
theorem c8_witness :
    (pickupPass [basePlayer, pSecond] [coinNear, coinFar]).2 = [coinFar] ∧
    ((pickupPass [basePlayer, pSecond] [coinNear, coinFar]).1[0]?).map Player.score = some 1 ∧
    ((pickupPass [basePlayer, pSecond] [coinNear, coinFar]).1[1]?).map Player.score = some 5 := by
  have h := c8_pickup_spec [basePlayer, pSecond] [coinNear, coinFar]
  have h1 : coinHit basePlayer coinNear := by
    norm_num [coinHit, basePlayer, coinNear, PLAYER_R, COIN_R]
  have h2 : ¬ coinHit basePlayer coinFar := by
    norm_num [coinHit, basePlayer, coinFar, PLAYER_R, COIN_R]
  have h4 : ¬ coinHit pSecond coinFar := by
    norm_num [coinHit, pSecond, coinFar, PLAYER_R, COIN_R]
  have hcN : claimant [basePlayer, pSecond] coinNear = some 0 := by
    simp [claimant_cons, h1]
  have hcF : claimant [basePlayer, pSecond] coinFar = none := by
    simp [claimant_cons, h2, h4, claimant]
  refine ⟨?_, ?_, ?_⟩
  · rw [h.2.1]
    simp [List.filter_cons, hcN, hcF]
  · rw [h.2.2 0]
    simp [List.filter_cons, hcN, hcF]
    norm_num [basePlayer]
  · rw [h.2.2 1]
    simp [List.filter_cons, hcN, hcF]
    norm_num [pSecond]

/-- C9: a broadcast triggered at time now builds ONE snapshot of the live
players and coins and schedules one delivery per currently-connected client,
in client order, every delivery carrying that identical snapshot and firing
exactly at now + SIM_LATENCY_MS (so never earlier than the outbound delay);
when a delivery fires against a closed connection the payload is silently
discarded (none), and against an open connection the client receives exactly
the snapshot. -/
theorem c9_broadcast_spec (now : Int) (ps : List Player) (cs : List Coin) (clients : List Conn) :
    (broadcastState now ps cs clients).length = clients.length ∧
    (∀ d ∈ broadcastState now ps cs clients,
      d.fireAt = now + SIM_LATENCY_MS ∧ d.payload = mkSnapshot now ps cs ∧
      deliverOutbound d false = none ∧ deliverOutbound d true = some (mkSnapshot now ps cs)) ∧
    (∀ i : Nat, ((broadcastState now ps cs clients)[i]?).map Delayed.target = clients[i]?) := by
  refine ⟨by simp [broadcastState], ?_, ?_⟩
  · intro d hd
    simp only [broadcastState, List.mem_map] at hd
    obtain ⟨ws, -, rfl⟩ := hd
    simp [sendWithLatency, deliverOutbound]
  · intro i
    simp only [broadcastState, List.getElem?_map]
    cases clients[i]? <;> simp [sendWithLatency]

/-- Witness for c9_broadcast_spec with one connected client: one delivery is
scheduled for it at time 200, a closed connection at fire time receives
nothing, an open one receives the snapshot. -/
theorem c9_witness :
    (broadcastState 0 [basePlayer] [] [cliConn]).length = 1 ∧
    ((broadcastState 0 [basePlayer] [] [cliConn])[0]?).map Delayed.target = some cliConn ∧
    deliverOutbound { fireAt := 200, target := cliConn, payload := mkSnapshot 0 [basePlayer] [] }
      false = none ∧
    deliverOutbound { fireAt := 200, target := cliConn, payload := mkSnapshot 0 [basePlayer] [] }
      true = some (mkSnapshot 0 [basePlayer] []) := by
  have h := c9_broadcast_spec 0 [basePlayer] [] [cliConn]
  have hmem : ({ fireAt := 200, target := cliConn, payload := mkSnapshot 0 [basePlayer] [] } : Delayed) ∈
      broadcastState 0 [basePlayer] [] [cliConn] := by
    simp [broadcastState, sendWithLatency, SIM_LATENCY_MS]
  have hd := h.2.1 _ hmem
  exact ⟨by simpa using h.1, by simpa using h.2.2 0, hd.2.2.1, hd.2.2.2⟩

/-- Updating the player with a given id by an id-preserving function
commutes with looking that id up. -/
theorem findPlayer_updatePlayer (ps : List Player) (pid : Nat) (f : Player → Player)
    (hf : ∀ q, (f q).id = q.id) :
    findPlayer (updatePlayer ps pid f) pid = (findPlayer ps pid).map f := by
  induction ps with
  | nil => rfl
  | cons q ps ih =>
    by_cases h : q.id = pid
    · simp [findPlayer, updatePlayer, List.find?_cons, h, hf]
    · simp only [findPlayer, updatePlayer, List.map_cons] at ih ⊢
      rw [if_neg (by simpa using h)]
      rw [List.find?_cons_of_neg _ (by simpa using h), List.find?_cons_of_neg _ (by simpa using h)]
      exact ih

/-- C10: applying an input message to a known player stores, in the input
intent of exactly that player, the current server time whenever the stamp
field is absent or equal to the falsy numeric value 0, the stamp value
itself whenever it is a nonzero number, and the strict-boolean coercion of
each direction field (the truthiness of a present field, false for an
absent one). -/
theorem c10_input_coercion (now : Int) (ws : Conn) (im : InMsg) (ps : List Player)
    (pid : Nat) (p : Player)
    (h1 : ws.playerId = some pid) (h2 : findPlayer ps pid = some p) :
    ((im.stamp = none ∨ im.stamp = some 0) →
      (findPlayer (handleMsg now ws (Msg.input im) ps) pid).map (fun q => q.input.stamp) =
        some (some now)) ∧
    (∀ v : Int, im.stamp = some v → v ≠ 0 →
      (findPlayer (handleMsg now ws (Msg.input im) ps) pid).map (fun q => q.input.stamp) =
        some (some v)) ∧
    (findPlayer (handleMsg now ws (Msg.input im) ps) pid).map
        (fun q => (q.input.up, q.input.down, q.input.left, q.input.right)) =
      some (im.up.getD false, im.down.getD false, im.left.getD false, im.right.getD false) := by
  have hstep : handleMsg now ws (Msg.input im) ps =
      updatePlayer ps pid (fun p =>
        { p with input :=
          { up := im.up.getD false,
            down := im.down.getD false,
            left := im.left.getD false,
            right := im.right.getD false,
            stamp := some (match im.stamp with
              | none => now
              | some v => if v = 0 then now else v) } }) := by
    simp [handleMsg, h1, h2]
  have hfind := findPlayer_updatePlayer ps pid
    (fun p =>
      { p with input :=
        { up := im.up.getD false,
          down := im.down.getD false,
          left := im.left.getD false,
          right := im.right.getD false,
          stamp := some (match im.stamp with
            | none => now
            | some v => if v = 0 then now else v) } })
    (fun q => rfl)
  rw [h2] at hfind
  rw [hstep, hfind]
  refine ⟨?_, ?_, ?_⟩
  · rintro (hnone | h0)
    · simp [hnone]
    · simp [h0]
  · intro v hv hvne
    simp [hv, hvne]
  · simp

/-- An input message carrying the falsy numeric stamp 0 and a truthy up
field. -/
def im0 : InMsg :=
  { up := some true, down := none, left := none, right := none, stamp := some 0 }

/-- An input message carrying the nonzero stamp 5. -/
def imV : InMsg :=
  { up := none, down := none, left := some true, right := none, stamp := some 5 }

/-- Witness for c10_input_coercion: a stamp of 0 is replaced by the server
time 777, a stamp of 5 is stored as-is, and the direction fields are stored
as strict booleans. -/
theorem c10_witness :
    (findPlayer (handleMsg 777 cliConn (Msg.input im0) [basePlayer]) 1).map
        (fun q => q.input.stamp) = some (some 777) ∧
    (findPlayer (handleMsg 777 cliConn (Msg.input imV) [basePlayer]) 1).map
        (fun q => q.input.stamp) = some (some 5) ∧
    (findPlayer (handleMsg 777 cliConn (Msg.input im0) [basePlayer]) 1).map
        (fun q => (q.input.up, q.input.down, q.input.left, q.input.right)) =
      some (true, false, false, false) := by
  have hA := c10_input_coercion 777 cliConn im0 [basePlayer] 1 basePlayer rfl rfl
  have hB := c10_input_coercion 777 cliConn imV [basePlayer] 1 basePlayer rfl rfl
  refine ⟨hA.1 (Or.inr rfl), hB.2.1 5 rfl (by norm_num), ?_⟩
  simpa [im0] using hA.2.2
